import Mathlib

/-!
Verification of the gaers.bio in-browser search/filter/sort/paginate/export
engine against its specification.

The JavaScript source is shallowly embedded into Lean:
* JS strings are `List Char`; JS numbers are `ℚ` (only order comparisons,
  subtraction and absolute value are used by the embedded code, on which
  IEEE doubles and rationals agree for the values of interest);
* JS objects whose fields the code reads dynamically are association lists;
  `null`/`undefined` become `Option.none` or the `JSVal.null`/`JSVal.undef`
  constructors where the code distinguishes values dynamically;
* fallible operations return `Option`.

Sources embedded below:
* `src/assets/js/utils.js` (exportToCSV, TableSorter, Paginator),
* `src/assets/js/gene-search.js` (GeneSearchEngine.applyFilters and defaults),
* the publications engine (PublicationsEngine.applyFilters / exportToCSV),
* the offline converters (bulk RNA-seq and spatial DEG record construction).
-/

namespace Gaers

/-- JS strings are modelled as lists of characters. -/
abbrev Str := List Char

/-- Rational literals built with `Rat.divInt` so that they reduce in the
kernel (decimal constants of the source are written as fractions). -/
def rq (n d : ℤ) : ℚ := Rat.divInt n d

/-- Conversion from Lean string literals to the model's string type. -/
def s2l (s : String) : Str := s.toList

/-! ## Converter scripts: regulation and significance
From `scripts/convert-rnaseq-data.js` (bulk) and the spatial converter
(`convertFile`): `regulation: logFC > 0 ? 'up' : 'down'` and
`significant: adjPVal < T && Math.abs(logFC) > 0.5`. -/

/-- Model of `Math.abs` on the rational embedding of JS numbers. -/
def jsAbs (q : ℚ) : ℚ := if q < 0 then -q else q

/-- The `regulation` field computed by the bulk RNA-seq converter:
`log2fc > 0 ? 'up' : 'down'`. -/
def bulkRegulation (log2fc : ℚ) : Str :=
  if log2fc > 0 then s2l "up" else s2l "down"

/-- The `significant` field computed by the bulk RNA-seq converter:
`padj < 0.1 && Math.abs(log2fc) > 0.5`. -/
def bulkSignificant (log2fc padj : ℚ) : Bool :=
  padj < rq 1 10 && jsAbs log2fc > rq 1 2

/-- The `regulation` field computed by the spatial DEG converter:
`logFC > 0 ? 'up' : 'down'`. -/
def spatialRegulation (logFC : ℚ) : Str :=
  if logFC > 0 then s2l "up" else s2l "down"

/-- The `significant` field computed by the spatial DEG converter:
`adjPVal < 0.05 && Math.abs(logFC) > 0.5`. -/
def spatialSignificant (logFC adjPVal : ℚ) : Bool :=
  adjPVal < rq 5 100 && jsAbs logFC > rq 1 2

/-- Follows the spec's words (for comparison with the code): "a record's
direction tag is always the sign of its fold-change ('up' for positive,
'down' for negative)", read as a biconditional between the tag and the
sign of the fold-change. -/
def specTagEqualsSign (reg : ℚ → Str) (fc : ℚ) : Prop :=
  (reg fc = s2l "up" ↔ 0 < fc) ∧ (reg fc = s2l "down" ↔ fc < 0)

/-! ## Paginator (`src/assets/js/utils.js`, class Paginator)
State is `{allData, itemsPerPage, currentPage}`; the DOM-rendering calls
(`updateControls`, `renderCallback`) do not touch this state and are
omitted. Page numbers passed to `goToPage` are modelled as integers. -/

structure PagState (α : Type) where
  allData : List α
  itemsPerPage : ℕ
  currentPage : ℕ
  deriving DecidableEq

/-- Constructor `new Paginator(containerId, data, itemsPerPage)`: starts at page 1. -/
def pagInit (d : List α) (ipp : ℕ) : PagState α := ⟨d, ipp, 1⟩

/-- Method `getTotalPages()`: `Math.ceil(allData.length / itemsPerPage)`. -/
def getTotalPages (s : PagState α) : ℕ :=
  (s.allData.length + s.itemsPerPage - 1) / s.itemsPerPage

/-- Method `goToPage(page)`: out-of-range pages are rejected (warning only),
otherwise `currentPage = page`. -/
def goToPageFn (s : PagState α) (page : ℤ) : PagState α :=
  if page < 1 ∨ (getTotalPages s : ℤ) < page then s
  else { s with currentPage := page.toNat }

/-- Method `nextPage()`: advances only when `currentPage < getTotalPages()`. -/
def nextPageFn (s : PagState α) : PagState α :=
  if s.currentPage < getTotalPages s then goToPageFn s ((s.currentPage : ℤ) + 1) else s

/-- Method `prevPage()`: goes back only when `currentPage > 1`. -/
def prevPageFn (s : PagState α) : PagState α :=
  if 1 < s.currentPage then goToPageFn s ((s.currentPage : ℤ) - 1) else s

/-- Method `updateData(data)`: replaces the data and resets to page 1. -/
def updateDataFn (s : PagState α) (d : List α) : PagState α :=
  { s with allData := d, currentPage := 1 }

/-- Method `changeItemsPerPage(n)`: sets the page size and resets to page 1. -/
def changeItemsPerPageFn (s : PagState α) (n : ℕ) : PagState α :=
  { s with itemsPerPage := n, currentPage := 1 }

/-- The five public Paginator operations. -/
inductive PagOp (α : Type) where
  | goToPage (page : ℤ)
  | nextPage
  | prevPage
  | updateData (d : List α)
  | changeItemsPerPage (n : ℕ)
  deriving DecidableEq

def pagStep (s : PagState α) : PagOp α → PagState α
  | .goToPage p => goToPageFn s p
  | .nextPage => nextPageFn s
  | .prevPage => prevPageFn s
  | .updateData d => updateDataFn s d
  | .changeItemsPerPage n => changeItemsPerPageFn s n

/-- The paginator invariant claimed by the spec: the current page always
lies in `[1, max 1 totalPages]`. -/
def PagInv (s : PagState α) : Prop :=
  1 ≤ s.currentPage ∧ s.currentPage ≤ max 1 (getTotalPages s)

end Gaers

namespace Gaers

theorem goToPageFn_inv {α : Type} {s : PagState α} (h : PagInv s) (p : ℤ) :
    PagInv (goToPageFn s p) := by
  unfold goToPageFn
  split
  · exact h
  · next hc =>
    have h1 : 1 ≤ p ∧ p ≤ (getTotalPages s : ℤ) := by omega
    constructor
    · simp only []
      omega
    · have : getTotalPages { s with currentPage := p.toNat } = getTotalPages s := rfl
      simp only [this]
      omega

theorem pagStep_inv {α : Type} {s : PagState α} (h : PagInv s) (op : PagOp α) :
    PagInv (pagStep s op) := by
  cases op with
  | goToPage p => exact goToPageFn_inv h p
  | nextPage =>
    show PagInv (nextPageFn s)
    unfold nextPageFn
    split
    · exact goToPageFn_inv h _
    · exact h
  | prevPage =>
    show PagInv (prevPageFn s)
    unfold prevPageFn
    split
    · exact goToPageFn_inv h _
    · exact h
  | updateData d =>
    exact ⟨le_refl 1, le_max_left 1 _⟩
  | changeItemsPerPage n =>
    exact ⟨le_refl 1, le_max_left 1 _⟩

theorem pagSteps_inv {α : Type} (ops : List (PagOp α)) :
    ∀ s : PagState α, PagInv s → PagInv (ops.foldl pagStep s) := by
  induction ops with
  | nil => exact fun s h => h
  | cons op rest ih => exact fun s h => ih (pagStep s op) (pagStep_inv h op)

/-- C2: starting from a freshly constructed Paginator, any sequence of the
five operations keeps `currentPage` in `[1, max 1 totalPages]`; `goToPage`
with an out-of-range page number leaves the state unchanged; and
`updateData` always resets `currentPage` to 1. -/
theorem C2_paginator_invariant (α : Type) (d₀ : List α) (ipp₀ : ℕ)
    (ops : List (PagOp α)) (s : PagState α) (p : ℤ) (d : List α)
    (_hipp : 0 < s.itemsPerPage)
    (hp : p < 1 ∨ (getTotalPages s : ℤ) < p) :
    PagInv (ops.foldl pagStep (pagInit d₀ ipp₀))
    ∧ pagStep s (PagOp.goToPage p) = s
    ∧ (pagStep s (PagOp.updateData d)).currentPage = 1 := by
  refine ⟨pagSteps_inv ops _ ⟨le_refl 1, le_max_left 1 _⟩, ?_, rfl⟩
  unfold pagStep goToPageFn
  exact if_pos hp

/-- C2 witness: a concrete run (5 items, page size 2, hence 3 pages, current
page 3; `goToPage 4` is out of range) discharging the hypotheses of
`C2_paginator_invariant`. -/
theorem C2_witness :
    0 < (PagState.mk [0, 1, 2, 3, 4] 2 3).itemsPerPage
    ∧ ((4 : ℤ) < 1 ∨ ((getTotalPages (PagState.mk [0, 1, 2, 3, 4] 2 3) : ℤ) < 4))
    ∧ (PagInv (([PagOp.goToPage 2, PagOp.nextPage, PagOp.updateData [5, 6, 7],
          PagOp.changeItemsPerPage 50, PagOp.prevPage]).foldl pagStep
            (pagInit [0, 1, 2] 2))
        ∧ pagStep (PagState.mk [0, 1, 2, 3, 4] 2 3) (PagOp.goToPage 4)
            = PagState.mk [0, 1, 2, 3, 4] 2 3
        ∧ (pagStep (PagState.mk [0, 1, 2, 3, 4] 2 3)
            (PagOp.updateData [9])).currentPage = 1) :=
  ⟨by decide, by decide,
    C2_paginator_invariant ℕ [0, 1, 2] 2
      [PagOp.goToPage 2, PagOp.nextPage, PagOp.updateData [5, 6, 7],
        PagOp.changeItemsPerPage 50, PagOp.prevPage]
      (PagState.mk [0, 1, 2, 3, 4] 2 3) 4 [9] (by decide) (by decide)⟩

end Gaers

namespace Gaers

/-- C7: the four scenario records with fold-changes [2.0, -1.5, 0.5, -3.0] and
adjusted p-values [0.01, 0.2, 0.04, 0.001]: under the spatial converter's
significance computation (threshold p < 0.05 and |fc| > 0.5) exactly the
records (2.0, 0.01) and (-3.0, 0.001) are significant, and the regulation
tags are [up, down, up, down]; the bulk converter (threshold p < 0.1)
marks the same records significant and assigns the same tags. -/
theorem C7_significance_scenario :
    [spatialSignificant 2 (rq 1 100), spatialSignificant (rq (-3) 2) (rq 2 10),
      spatialSignificant (rq 1 2) (rq 4 100), spatialSignificant (-3) (rq 1 1000)]
        = [true, false, false, true]
    ∧ [2, rq (-3) 2, rq 1 2, -3].map spatialRegulation
        = [s2l "up", s2l "down", s2l "up", s2l "down"]
    ∧ [bulkSignificant 2 (rq 1 100), bulkSignificant (rq (-3) 2) (rq 2 10),
        bulkSignificant (rq 1 2) (rq 4 100), bulkSignificant (-3) (rq 1 1000)]
        = [true, false, false, true]
    ∧ [2, rq (-3) 2, rq 1 2, -3].map bulkRegulation
        = [s2l "up", s2l "down", s2l "up", s2l "down"] := by
  decide

/-- C8 counterexample: at fold-change 0 the converters tag the record 'down',
but 0 is not negative, so the tag is not the sign of the fold-change. -/
theorem C8_counterexample : ¬ specTagEqualsSign spatialRegulation 0 := by
  unfold specTagEqualsSign
  decide

/-- C8 (amended): the regulation tag is a pure function of the fold-change:
'up' exactly for positive fold-changes and 'down' exactly for non-positive
ones (zero is tagged 'down'); the bulk and spatial converters agree. -/
theorem C8_amended_regulation (fc : ℚ) :
    (spatialRegulation fc = s2l "up" ↔ 0 < fc)
    ∧ (spatialRegulation fc = s2l "down" ↔ fc ≤ 0)
    ∧ bulkRegulation fc = spatialRegulation fc := by
  by_cases h : fc > 0
  · simp only [spatialRegulation, bulkRegulation, if_pos h]
    exact ⟨⟨fun _ => h, fun _ => trivial⟩,
      ⟨fun hs => absurd hs (by decide), fun hle => absurd h (not_lt.mpr hle)⟩, trivial⟩
  · simp only [spatialRegulation, bulkRegulation, if_neg h]
    exact ⟨⟨fun hs => absurd hs (by decide), fun hpos => absurd hpos h⟩,
      ⟨fun _ => not_lt.mp h, fun _ => trivial⟩, trivial⟩

end Gaers

namespace Gaers

/-! ## Gene search engine (`src/assets/js/gene-search.js`)
Records as consumed by `applyFilters` (the output shape of
`normalizeGeneData`); absent values are `none`. -/

structure DatasetObs where
  log2fc : Option ℚ
  adj_p_val : Option ℚ
  regulation : Option Str
  deriving DecidableEq

structure Gene where
  symbol : Str
  name : Str
  ensembl_id : Str
  bulk_rnaseq : Option DatasetObs
  spatial_p15 : Option DatasetObs
  spatial_p30 : Option DatasetObs
  seizure_gene : Bool
  deriving DecidableEq

/-- The `this.filters` configuration of `GeneSearchEngine` (the four
`datasets` toggles are inlined as booleans). -/
structure GeneFilters where
  regulation : Str
  ds_bulk_rnaseq : Bool
  ds_spatial_p15 : Bool
  ds_spatial_p30 : Bool
  ds_seizure_gene : Bool
  pvalueThreshold : ℚ
  log2fcMin : Option ℚ
  log2fcMax : Option ℚ
  deriving DecidableEq

/-- Constructor defaults of `GeneSearchEngine` (`pvalueThreshold: 1.0`,
all dataset toggles on, no fold-change bounds). -/
def defaultGeneFilters : GeneFilters :=
  ⟨s2l "all", true, true, true, true, 1, none, none⟩

/-- JS `String.prototype.toLowerCase` (character-wise model). -/
def lowerStr (s : Str) : Str := s.map Char.toLower

/-- JS `s.includes(sub)`. -/
def jsIncludes (s sub : Str) : Bool := decide (List.IsInfix sub s)

/-- Search-term predicate: case-insensitive substring match against
symbol, name and ensembl_id, each guarded by truthiness. -/
def searchPred (term : Str) (g : Gene) : Bool :=
  let searchLower := lowerStr term
  (!g.symbol.isEmpty && jsIncludes (lowerStr g.symbol) searchLower)
  || (!g.name.isEmpty && jsIncludes (lowerStr g.name) searchLower)
  || (!g.ensembl_id.isEmpty && jsIncludes (lowerStr g.ensembl_id) searchLower)

/-- Test `gene.X?.regulation === filters.regulation` for one dataset. -/
def obsRegEq : Option DatasetObs → Str → Bool
  | some o, r => o.regulation == some r
  | none, _ => false

/-- Regulation predicate: regulation match in at least one dataset whose
toggle is enabled. -/
def regPred (f : GeneFilters) (g : Gene) : Bool :=
  (f.ds_bulk_rnaseq && obsRegEq g.bulk_rnaseq f.regulation)
  || (f.ds_spatial_p15 && obsRegEq g.spatial_p15 f.regulation)
  || (f.ds_spatial_p30 && obsRegEq g.spatial_p30 f.regulation)

/-- Dataset-presence predicate: the gene is present in at least one
enabled dataset (`seizure_gene` counts via its boolean flag). -/
def dsPresent (f : GeneFilters) (g : Gene) : Bool :=
  (f.ds_bulk_rnaseq && g.bulk_rnaseq.isSome)
  || (f.ds_spatial_p15 && g.spatial_p15.isSome)
  || (f.ds_spatial_p30 && g.spatial_p30.isSome)
  || (f.ds_seizure_gene && g.seizure_gene)

/-- Count `Object.keys(filters.datasets).filter(enabled).length`. -/
def activeDatasetCount (f : GeneFilters) : ℕ :=
  (if f.ds_bulk_rnaseq then 1 else 0) + (if f.ds_spatial_p15 then 1 else 0)
  + (if f.ds_spatial_p30 then 1 else 0) + (if f.ds_seizure_gene then 1 else 0)

/-- Test `gene.X?.adj_p_val <= threshold` for one dataset (`undefined`
comparisons are false). -/
def obsPvalLe : Option DatasetObs → ℚ → Bool
  | some o, t =>
    match o.adj_p_val with
    | some p => decide (p ≤ t)
    | none => false
  | none, _ => false

/-- P-value predicate: adjusted p-value below threshold in at least one
dataset whose toggle is enabled. -/
def pvalPred (f : GeneFilters) (g : Gene) : Bool :=
  (f.ds_bulk_rnaseq && obsPvalLe g.bulk_rnaseq f.pvalueThreshold)
  || (f.ds_spatial_p15 && obsPvalLe g.spatial_p15 f.pvalueThreshold)
  || (f.ds_spatial_p30 && obsPvalLe g.spatial_p30 f.pvalueThreshold)

/-- The log2fc values collected by the range filter: note the source
collects them from all three datasets with no toggle check. -/
def fcVals (g : Gene) : List ℚ :=
  [g.bulk_rnaseq.bind DatasetObs.log2fc, g.spatial_p15.bind DatasetObs.log2fc,
    g.spatial_p30.bind DatasetObs.log2fc].reduceOption

/-- One value passes the |log2fc| range (null bound = unbounded). -/
def inFcRange (f : GeneFilters) (fc : ℚ) : Bool :=
  let absFc := jsAbs fc
  (match f.log2fcMin with | none => true | some m => decide (absFc ≥ m))
  && (match f.log2fcMax with | none => true | some m => decide (absFc ≤ m))

/-- Log2FC range predicate: empty value list fails, otherwise some value
in range. -/
def fcPred (f : GeneFilters) (g : Gene) : Bool :=
  let vals := fcVals g
  !vals.isEmpty && vals.any (inFcRange f)

/-- Filter stage 1: search term (skipped when the term is empty). -/
def searchStage (term : Str) (l : List Gene) : List Gene :=
  if term.isEmpty then l else l.filter (searchPred term)

/-- Filter stage 2: regulation (skipped on 'all'). -/
def regulationStage (f : GeneFilters) (l : List Gene) : List Gene :=
  if f.regulation ≠ s2l "all" then l.filter (regPred f) else l

/-- Filter stage 3: dataset presence (skipped unless the number of enabled
toggles is strictly between 0 and 4). -/
def datasetStage (f : GeneFilters) (l : List Gene) : List Gene :=
  if 0 < activeDatasetCount f ∧ activeDatasetCount f < 4 then
    l.filter (dsPresent f)
  else l

/-- Filter stage 4: p-value threshold (skipped at the disabled value 1.0). -/
def pvalueStage (f : GeneFilters) (l : List Gene) : List Gene :=
  if f.pvalueThreshold < 1 then l.filter (pvalPred f) else l

/-- Filter stage 5: |log2fc| range (skipped when both bounds are null). -/
def log2fcStage (f : GeneFilters) (l : List Gene) : List Gene :=
  if f.log2fcMin ≠ none ∨ f.log2fcMax ≠ none then l.filter (fcPred f) else l

/-- Function `GeneSearchEngine.applyFilters`: the five stages in source order over a
copy of `allGenes`. -/
def geneApplyFilters (allGenes : List Gene) (term : Str) (f : GeneFilters) :
    List Gene :=
  log2fcStage f (pvalueStage f (datasetStage f (regulationStage f
    (searchStage term allGenes))))

/-! ## Publications engine (`PublicationsEngine.applyFilters`) -/

structure Pub where
  title : Str
  authors : Str
  year : Option ℤ
  citations : Option ℤ
  abstract : Str
  takeaway : Str
  journal : Str
  sjr_quartile : Str
  study_type : Str
  doi : Str
  consensus_link : Str
  deriving DecidableEq

/-- The `this.filters` configuration of `PublicationsEngine`. -/
structure PubFilters where
  yearMin : Option ℤ
  yearMax : Option ℤ
  quartile : Str
  studyType : Str
  citationMin : Option ℤ
  journal : Str
  deriving DecidableEq

/-- Constructor defaults of `PublicationsEngine`. -/
def defaultPubFilters : PubFilters :=
  ⟨none, none, s2l "all", s2l "all", none, []⟩

/-- Text search across title/authors/abstract/journal/takeaway. -/
def pubSearchPred (term : Str) (p : Pub) : Bool :=
  let t := lowerStr term
  (!p.title.isEmpty && jsIncludes (lowerStr p.title) t)
  || (!p.authors.isEmpty && jsIncludes (lowerStr p.authors) t)
  || (!p.abstract.isEmpty && jsIncludes (lowerStr p.abstract) t)
  || (!p.journal.isEmpty && jsIncludes (lowerStr p.journal) t)
  || (!p.takeaway.isEmpty && jsIncludes (lowerStr p.takeaway) t)

def pubSearchStage (term : Str) (l : List Pub) : List Pub :=
  if term.isEmpty then l else l.filter (pubSearchPred term)

def yearMinStage (f : PubFilters) (l : List Pub) : List Pub :=
  match f.yearMin with
  | none => l
  | some m => l.filter (fun p =>
      match p.year with | some y => decide (m ≤ y) | none => false)

def yearMaxStage (f : PubFilters) (l : List Pub) : List Pub :=
  match f.yearMax with
  | none => l
  | some m => l.filter (fun p =>
      match p.year with | some y => decide (y ≤ m) | none => false)

def quartileStage (f : PubFilters) (l : List Pub) : List Pub :=
  if f.quartile ≠ s2l "all" then
    if f.quartile = s2l "unranked" then
      l.filter (fun p => p.sjr_quartile.isEmpty)
    else
      l.filter (fun p => p.sjr_quartile == f.quartile)
  else l

/-- The closed set of known study types used by the 'other' branch. -/
def knownStudyTypes : List Str :=
  [s2l "non-rct experimental", s2l "systematic review",
    s2l "non-rct observational study"]

def studyTypeStage (f : PubFilters) (l : List Pub) : List Pub :=
  if f.studyType ≠ s2l "all" then
    if f.studyType = s2l "other" then
      l.filter (fun p =>
        p.study_type.isEmpty || !(knownStudyTypes.contains (lowerStr p.study_type)))
    else
      l.filter (fun p =>
        !p.study_type.isEmpty && lowerStr p.study_type == lowerStr f.studyType)
  else l

def citationStage (f : PubFilters) (l : List Pub) : List Pub :=
  match f.citationMin with
  | none => l
  | some m => l.filter (fun p =>
      match p.citations with | some c => decide (m ≤ c) | none => false)

def journalStage (f : PubFilters) (l : List Pub) : List Pub :=
  if f.journal.isEmpty then l
  else l.filter (fun p =>
    !p.journal.isEmpty && jsIncludes (lowerStr p.journal) (lowerStr f.journal))

/-- Function `PublicationsEngine.applyFilters`: the seven stages in source order. -/
def pubApplyFilters (all : List Pub) (term : Str) (f : PubFilters) : List Pub :=
  journalStage f (citationStage f (studyTypeStage f (quartileStage f
    (yearMaxStage f (yearMinStage f (pubSearchStage term all))))))

end Gaers

namespace Gaers

theorem condFilter_sublist (c : Prop) [Decidable c] (p : α → Bool) (l : List α) :
    (if c then l.filter p else l).Sublist l := by
  split
  · exact List.filter_sublist l
  · exact List.Sublist.refl l

theorem searchStage_sublist (term : Str) (l : List Gene) :
    (searchStage term l).Sublist l := by
  unfold searchStage
  split
  · exact List.Sublist.refl l
  · exact List.filter_sublist l

theorem regulationStage_sublist (f : GeneFilters) (l : List Gene) :
    (regulationStage f l).Sublist l := condFilter_sublist _ _ l

theorem datasetStage_sublist (f : GeneFilters) (l : List Gene) :
    (datasetStage f l).Sublist l := condFilter_sublist _ _ l

theorem pvalueStage_sublist (f : GeneFilters) (l : List Gene) :
    (pvalueStage f l).Sublist l := condFilter_sublist _ _ l

theorem log2fcStage_sublist (f : GeneFilters) (l : List Gene) :
    (log2fcStage f l).Sublist l := condFilter_sublist _ _ l

theorem pubSearchStage_sublist (term : Str) (l : List Pub) :
    (pubSearchStage term l).Sublist l := by
  unfold pubSearchStage
  split
  · exact List.Sublist.refl l
  · exact List.filter_sublist l

theorem yearMinStage_sublist (f : PubFilters) (l : List Pub) :
    (yearMinStage f l).Sublist l := by
  unfold yearMinStage
  split
  · exact List.Sublist.refl l
  · exact List.filter_sublist l

theorem yearMaxStage_sublist (f : PubFilters) (l : List Pub) :
    (yearMaxStage f l).Sublist l := by
  unfold yearMaxStage
  split
  · exact List.Sublist.refl l
  · exact List.filter_sublist l

theorem quartileStage_sublist (f : PubFilters) (l : List Pub) :
    (quartileStage f l).Sublist l := by
  unfold quartileStage
  split
  · split
    · exact List.filter_sublist l
    · exact List.filter_sublist l
  · exact List.Sublist.refl l

theorem studyTypeStage_sublist (f : PubFilters) (l : List Pub) :
    (studyTypeStage f l).Sublist l := by
  unfold studyTypeStage
  split
  · split
    · exact List.filter_sublist l
    · exact List.filter_sublist l
  · exact List.Sublist.refl l

theorem citationStage_sublist (f : PubFilters) (l : List Pub) :
    (citationStage f l).Sublist l := by
  unfold citationStage
  split
  · exact List.Sublist.refl l
  · exact List.filter_sublist l

theorem journalStage_sublist (f : PubFilters) (l : List Pub) :
    (journalStage f l).Sublist l := by
  unfold journalStage
  split
  · exact List.Sublist.refl l
  · exact List.filter_sublist l

/-- C1: both `applyFilters` implementations return a subsequence of their
input: every output record occurs in the input, none is duplicated or
fabricated, and surviving records keep their original relative order (the
embedding is pure, so the input list is unchanged). -/
theorem C1_applyFilters_subsequence (genes : List Gene) (gterm : Str)
    (gf : GeneFilters) (pubs : List Pub) (pterm : Str) (pf : PubFilters) :
    (geneApplyFilters genes gterm gf).Sublist genes
    ∧ (pubApplyFilters pubs pterm pf).Sublist pubs := by
  constructor
  · exact ((((log2fcStage_sublist gf _).trans (pvalueStage_sublist gf _)).trans
      (datasetStage_sublist gf _)).trans (regulationStage_sublist gf _)).trans
      (searchStage_sublist gterm genes)
  · exact ((((((journalStage_sublist pf _).trans (citationStage_sublist pf _)).trans
      (studyTypeStage_sublist pf _)).trans (quartileStage_sublist pf _)).trans
      (yearMaxStage_sublist pf _)).trans (yearMinStage_sublist pf _)).trans
      (pubSearchStage_sublist pterm pubs)

/-- C6: with every criterion at its constructor default (empty search term,
'all' categorical filters, all dataset toggles enabled, p-value threshold
1.0, null numeric bounds) both `applyFilters` implementations return the
input list unchanged. -/
theorem C6_default_filters_identity (genes : List Gene) (pubs : List Pub) :
    geneApplyFilters genes [] defaultGeneFilters = genes
    ∧ pubApplyFilters pubs [] defaultPubFilters = pubs :=
  ⟨rfl, rfl⟩

/-- C10: the dataset-presence clause of the gene `applyFilters` is skipped
entirely when all four dataset toggles are disabled — every record passes
it, exactly as when all four toggles are enabled. -/
theorem C10_dataset_clause_skip (l : List Gene) (reg : Str) (pv : ℚ)
    (mn mx : Option ℚ) :
    datasetStage ⟨reg, false, false, false, false, pv, mn, mx⟩ l = l
    ∧ datasetStage ⟨reg, true, true, true, true, pv, mn, mx⟩ l = l :=
  ⟨rfl, rfl⟩

end Gaers

namespace Gaers

/-- Follows the spec's words (for comparison with the code): for the
log2 fold-change range criterion, "a record passes if at least one
enabled dataset's value falls within the given bounds", i.e. values of
datasets whose toggle is disabled do not count. -/
def specNumericFcPass (f : GeneFilters) (g : Gene) : Bool :=
  ([if f.ds_bulk_rnaseq then g.bulk_rnaseq.bind DatasetObs.log2fc else none,
    if f.ds_spatial_p15 then g.spatial_p15.bind DatasetObs.log2fc else none,
    if f.ds_spatial_p30 then g.spatial_p30.bind DatasetObs.log2fc else none
  ].reduceOption).any (inFcRange f)

/-- A gene present only in the (disabled) bulk dataset, with log2fc 5. -/
def c4gene : Gene :=
  ⟨s2l "G1", [], [], some ⟨some 5, some (rq 1 2), some (s2l "up")⟩,
    none, none, true⟩

/-- Criteria with the bulk toggle disabled and a log2fc lower bound of 1. -/
def c4filters : GeneFilters :=
  ⟨s2l "all", false, true, true, true, 1, some 1, none⟩

/-- C4 counterexample: the record `c4gene` has its only fold-change value
(5) in a dataset whose toggle is disabled; the spec's numeric-range clause
rejects it, but `applyFilters` keeps it — the code's log2fc range filter
ignores the dataset toggles. -/
theorem C4_counterexample :
    geneApplyFilters [c4gene] [] c4filters = [c4gene]
    ∧ specNumericFcPass c4filters c4gene = false := by
  constructor
  · decide
  · decide

/-- C4 (amended): the p-value threshold filter respects the dataset
toggles — a record passes iff some enabled dataset has an adjusted
p-value at most the threshold — but the log2 fold-change range filter
considers values from all datasets present on the record: its result is
unchanged under any setting of the four dataset toggles. -/
theorem C4_amended_numeric_filters (f : GeneFilters) (b₁ b₂ b₃ b₄ : Bool)
    (g : Gene) :
    fcPred (GeneFilters.mk f.regulation b₁ b₂ b₃ b₄ f.pvalueThreshold
      f.log2fcMin f.log2fcMax) g = fcPred f g
    ∧ (pvalPred f g = true ↔
        ((f.ds_bulk_rnaseq = true ∧ ∃ o, g.bulk_rnaseq = some o
            ∧ ∃ p, o.adj_p_val = some p ∧ p ≤ f.pvalueThreshold)
        ∨ (f.ds_spatial_p15 = true ∧ ∃ o, g.spatial_p15 = some o
            ∧ ∃ p, o.adj_p_val = some p ∧ p ≤ f.pvalueThreshold)
        ∨ (f.ds_spatial_p30 = true ∧ ∃ o, g.spatial_p30 = some o
            ∧ ∃ p, o.adj_p_val = some p ∧ p ≤ f.pvalueThreshold))) := by
  refine ⟨rfl, ?_⟩
  have hiff : ∀ (o : Option DatasetObs) (t : ℚ), obsPvalLe o t = true ↔
      ∃ ob, o = some ob ∧ ∃ p, ob.adj_p_val = some p ∧ p ≤ t := by
    intro o t
    cases o with
    | none => simp [obsPvalLe]
    | some ob =>
      cases h : ob.adj_p_val with
      | none => simp [obsPvalLe, h]
      | some p => simp [obsPvalLe, h]
  simp [pvalPred, hiff]
  exact or_assoc

end Gaers

namespace Gaers

/-! ## TableSorter (`src/assets/js/utils.js`, class TableSorter)
Rows are JS objects (association lists) with dynamically typed values. -/

/-- Dynamically typed JS values as read from a row's column. -/
inductive JSVal where
  | null
  | undef
  | num (q : ℚ)
  | str (s : Str)
  | bool (b : Bool)
  deriving DecidableEq

/-- A table row: a JS object binding column names to values. -/
abbrev JRow := List (Str × JSVal)

/-- Access `row[column]`: association-list lookup, `undefined` when absent. -/
def rowGetJ (r : JRow) (k : Str) : JSVal :=
  match r.find? (fun p => p.1 == k) with
  | some p => p.2
  | none => JSVal.undef

/-- Test `value === null || value === undefined`. -/
def isNullish : JSVal → Bool
  | .null => true
  | .undef => true
  | _ => false

/-- Test `typeof value === 'number'`. -/
def isNumber : JSVal → Bool
  | .num _ => true
  | _ => false

/-- Decimal digits of a natural number (model of JS number printing,
exact for the integral values the table columns hold). -/
def natToStr (n : ℕ) : Str := Nat.toDigits 10 n

def intToStr (n : ℤ) : Str :=
  if n < 0 then '-' :: natToStr n.natAbs else natToStr n.natAbs

/-- Model of `String(value)` for the embedded value domain (integers print
exactly; non-integral rationals are printed as fractions — a stand-in for
JS float formatting, unused by any theorem below). -/
def qToStr (q : ℚ) : Str :=
  if q.den = 1 then intToStr q.num
  else intToStr q.num ++ '/' :: natToStr q.den

def jsToString : JSVal → Str
  | .str s => s
  | .num q => qToStr q
  | .bool true => s2l "true"
  | .bool false => s2l "false"
  | .null => s2l "null"
  | .undef => s2l "undefined"

def digitsToNat (ds : Str) : ℕ :=
  ds.foldl (fun a c => 10 * a + (c.toNat - '0'.toNat)) 0

/-- Model of `parseFloat` on a string: optional sign, digits, optional
fraction; anything else is NaN (`none`). -/
def parseFloatChars (s : Str) : Option ℚ :=
  let signed : ℚ × Str :=
    match s with
    | '-' :: r => (-1, r)
    | '+' :: r => (1, r)
    | r => (1, r)
  let ds := signed.2.takeWhile Char.isDigit
  let rest := signed.2.dropWhile Char.isDigit
  if ds.isEmpty then none
  else
    let ip : ℚ := (digitsToNat ds : ℤ)
    match rest with
    | '.' :: r =>
      let fs := r.takeWhile Char.isDigit
      some (signed.1 * (ip + rq (digitsToNat fs) (10 ^ fs.length)))
    | _ => some (signed.1 * ip)

/-- Conversion `parseFloat(value)`: numbers pass through, strings are parsed,
everything else is NaN (`none`). -/
def jsParseFloat : JSVal → Option ℚ
  | .num q => some q
  | .str s => parseFloatChars s
  | _ => none

/-- Model of `localeCompare`: lexicographic comparison by character code,
returning -1/0/1. -/
def lexCmp : Str → Str → ℤ
  | [], [] => 0
  | [], _ :: _ => -1
  | _ :: _, [] => 1
  | a :: as, b :: bs => if a < b then -1 else if b < a then 1 else lexCmp as bs

/-- The comparator passed to `Array.prototype.sort` by `TableSorter.sort`:
null/undefined values compare greater regardless of direction; otherwise
numeric difference (NaN results act as 0) or case-insensitive string
comparison, direction-sensitive. -/
def tableCmp (ty dir col : Str) (a b : JRow) : ℚ :=
  if isNullish (rowGetJ a col) then 1
  else if isNullish (rowGetJ b col) then -1
  else if ty = s2l "number" then
    match jsParseFloat (rowGetJ a col), jsParseFloat (rowGetJ b col) with
    | some x, some y => if dir = s2l "asc" then x - y else y - x
    | _, _ => 0
  else
    let sa := lowerStr (jsToString (rowGetJ a col))
    let sb := lowerStr (jsToString (rowGetJ b col))
    if dir = s2l "asc" then (lexCmp sa sb : ℚ) else (lexCmp sb sa : ℚ)

/-- Stable insertion with JS comparator semantics: the new element is
placed before the first element it compares strictly less than. -/
def insertJS (c : α → α → ℚ) (x : α) : List α → List α
  | [] => [x]
  | y :: ys => if c x y < 0 then x :: y :: ys else y :: insertJS c x ys

/-- Model of `Array.prototype.sort(comparator)` as a stable comparison
sort (ES2019 requires sort stability). -/
def jsSort (c : α → α → ℚ) (l : List α) : List α :=
  l.foldl (fun acc x => insertJS c x acc) []

/-- Type resolution of `TableSorter.sort`: on 'auto' with non-empty data
the type is inferred from `data[0][column]` (the first row's value,
whether or not it is null). -/
def resolveType (data : List JRow) (col ty : Str) : Str :=
  if ty = s2l "auto" then
    match data with
    | r :: _ => if isNumber (rowGetJ r col) then s2l "number" else s2l "string"
    | [] => ty
  else ty

/-- The data reordering performed by `TableSorter.sort(column, type)` at a
given direction. -/
def sortData (data : List JRow) (col ty dir : Str) : List JRow :=
  jsSort (tableCmp (resolveType data col ty) dir col) data

/-- Follows the spec's words (for comparison with the code): "infer from
the first non-null sample value of that column (number → numeric compare,
else string compare)". -/
def specResolveType (data : List JRow) (col ty : Str) : Str :=
  if ty = s2l "auto" then
    match (data.map (fun r => rowGetJ r col)).find? (fun v => !isNullish v) with
    | some v => if isNumber v then s2l "number" else s2l "string"
    | none => ty
  else ty

end Gaers

namespace Gaers

theorem mem_insertJS {α : Type} (c : α → α → ℚ) (x : α) (l : List α) (z : α) :
    z ∈ insertJS c x l ↔ z = x ∨ z ∈ l := by
  induction l with
  | nil => simp [insertJS]
  | cons y ys ih =>
    unfold insertJS
    split
    · simp [List.mem_cons]
    · simp only [List.mem_cons, ih]
      tauto

theorem insertJS_pairwise {α : Type} {c : α → α → ℚ} {P : α → Bool} {x : α}
    (hx : ∀ y, P x = true → ¬ c x y < 0)
    (hx' : ∀ y, P x = false → P y = true → c x y < 0)
    {l : List α} (h : l.Pairwise (fun a b => P a = true → P b = true)) :
    (insertJS c x l).Pairwise (fun a b => P a = true → P b = true) := by
  induction l with
  | nil => simp [insertJS]
  | cons y ys ih =>
    rw [List.pairwise_cons] at h
    unfold insertJS
    split
    · next hlt =>
      refine List.pairwise_cons.mpr ⟨?_, List.pairwise_cons.mpr h⟩
      intro b _ hPx
      exact absurd hlt (hx y hPx)
    · next hge =>
      refine List.pairwise_cons.mpr ⟨?_, ih h.2⟩
      intro b hb hPy
      rcases (mem_insertJS c x ys b).mp hb with rfl | hbys
      · by_contra hPb
        have hPbf : P b = false := by
          revert hPb
          cases P b <;> simp
        exact hge (hx' y hPbf hPy)
      · exact h.1 b hbys hPy

theorem jsSort_pairwise {α : Type} {c : α → α → ℚ} {P : α → Bool}
    (hc₁ : ∀ x y, P x = true → ¬ c x y < 0)
    (hc₂ : ∀ x y, P x = false → P y = true → c x y < 0) (l : List α) :
    (jsSort c l).Pairwise (fun a b => P a = true → P b = true) := by
  unfold jsSort
  suffices h : ∀ acc : List α, acc.Pairwise (fun a b => P a = true → P b = true) →
      (l.foldl (fun acc x => insertJS c x acc) acc).Pairwise
        (fun a b => P a = true → P b = true) from h [] List.Pairwise.nil
  induction l with
  | nil => exact fun acc h => h
  | cons x xs ih =>
    exact fun acc h => ih _ (insertJS_pairwise (hc₁ x) (hc₂ x) h)

theorem tableCmp_null_left {ty dir col : Str} {a : JRow} (b : JRow)
    (h : isNullish (rowGetJ a col) = true) : tableCmp ty dir col a b = 1 := by
  unfold tableCmp
  rw [h]
  simp

theorem tableCmp_null_right {ty dir col : Str} {a b : JRow}
    (ha : isNullish (rowGetJ a col) = false)
    (hb : isNullish (rowGetJ b col) = true) : tableCmp ty dir col a b = -1 := by
  unfold tableCmp
  rw [ha, hb]
  simp

/-- C5: for every record list, sort column, comparison type and direction,
after `TableSorter.sort` every record whose value in the sort column is
null or undefined comes after all records with non-null values (nulls
sort last in both directions). -/
theorem C5_nulls_sort_last (data : List JRow) (col ty dir : Str) :
    (sortData data col ty dir).Pairwise
      (fun a b => isNullish (rowGetJ a col) = true →
        isNullish (rowGetJ b col) = true) := by
  unfold sortData
  refine jsSort_pairwise ?_ ?_ data
  · intro x y hx
    rw [tableCmp_null_left y hx]
    norm_num
  · intro x y hx hy
    rw [tableCmp_null_right hx hy]
    norm_num

/-- C9 counterexample: with records whose first row has a null value in the
sort column and whose second row holds the number 5, the code infers the
comparison type from the first row's value (null, hence 'string'), while
the spec prescribes inference from the first non-null sample value
(5, hence 'number'). -/
theorem C9_counterexample :
    resolveType [[(s2l "x", JSVal.null)], [(s2l "x", JSVal.num 5)]]
        (s2l "x") (s2l "auto") = s2l "string"
    ∧ specResolveType [[(s2l "x", JSVal.null)], [(s2l "x", JSVal.num 5)]]
        (s2l "x") (s2l "auto") = s2l "number" := by
  constructor
  · decide
  · decide

/-- C9 (amended): for non-empty data, sorting with type 'auto' behaves
exactly like sorting with the type inferred from the first record's value
in the sort column — numeric when that value is a number (even when a
later row is the first non-null one), string comparison otherwise. -/
theorem C9_amended_type_inference (r : JRow) (rest : List JRow)
    (col dir : Str) :
    sortData (r :: rest) col (s2l "auto") dir
      = sortData (r :: rest) col
          (if isNumber (rowGetJ r col) then s2l "number" else s2l "string") dir := by
  have hna : ∀ (d : List JRow) (c t : Str), t ≠ s2l "auto" →
      resolveType d c t = t := by
    intro d c t h
    unfold resolveType
    rw [if_neg h]
  by_cases hn : isNumber (rowGetJ r col) = true
  · rw [if_pos hn]
    unfold sortData
    have h1 : resolveType (r :: rest) col (s2l "auto") = s2l "number" := by
      simp [resolveType, hn]
    rw [h1, hna (r :: rest) col (s2l "number") (by decide)]
  · rw [if_neg hn]
    unfold sortData
    have h1 : resolveType (r :: rest) col (s2l "auto") = s2l "string" := by
      simp [resolveType, hn]
    rw [h1, hna (r :: rest) col (s2l "string") (by decide)]

end Gaers

namespace Gaers

/-! ## CSV export (`exportToCSV` in `src/assets/js/utils.js` and
`PublicationsEngine.exportToCSV`) and a standard CSV parser
(RFC-4180-style quoting, '\n' row separator as produced by the code). -/

/-- Test `stringValue.includes(',') || includes('"') || includes('\n')`. -/
def needsQuote (s : Str) : Bool :=
  s.contains ',' || s.contains '"' || s.contains '\n'

/-- Substitution `stringValue.replace(/"/g, '""')`. -/
def dupQuotes (s : Str) : Str :=
  s.flatMap (fun c => if c = '"' then ['"', '"'] else [c])

/-- The CSV escaping rule of both exporters: quote-wrap (with doubled
inner quotes) exactly when the value contains a comma, quote or newline. -/
def escapeField (s : Str) : Str :=
  if needsQuote s then '"' :: (dupQuotes s ++ ['"']) else s

/-- A cell value as the exporter sees it: a string or null/undefined. -/
abbrev Cell := Option Str

/-- An export row: a JS object binding field keys to cell values. -/
abbrev CRow := List (Str × Cell)

/-- Column definition `{key, header}` of `exportToCSV`. -/
structure Col where
  key : Str
  header : Str
  deriving DecidableEq

/-- Access `row[col.key]` (missing key behaves like null/undefined). -/
def rowGetCell (r : CRow) (k : Str) : Cell :=
  match r.find? (fun p => p.1 == k) with
  | some p => p.2
  | none => none

/-- One rendered cell: null/undefined become the empty string, everything
else is escaped. -/
def cellText : Cell → Str
  | none => []
  | some s => escapeField s

/-- JS `Array.prototype.join(sep)`. -/
def joinSep (sep : Str) : List Str → Str
  | [] => []
  | x :: xs =>
    match xs with
    | [] => x
    | _ :: _ => x ++ sep ++ joinSep sep xs

/-- One CSV data row of `exportToCSV`. -/
def csvRow (cols : List Col) (r : CRow) : Str :=
  joinSep [','] (cols.map (fun c => cellText (rowGetCell r c.key)))

/-- The header row of `exportToCSV` (headers are joined unescaped). -/
def csvHeaderRow (cols : List Col) : Str :=
  joinSep [','] (cols.map Col.header)

/-- The text built by `exportToCSV` (`[headers, ...rows].join('\n')`);
`none` models the early return on empty data. -/
def exportToCSV (data : List CRow) (cols : List Col) : Option Str :=
  if data.isEmpty then none
  else some (joinSep ['\n'] (csvHeaderRow cols :: data.map (csvRow cols)))

/-- The fixed header list of `PublicationsEngine.exportToCSV`. -/
def pubHeaders : List Str :=
  [s2l "Title", s2l "Authors", s2l "Year", s2l "Journal",
    s2l "Journal SJR Quartile", s2l "Citations", s2l "Study Type",
    s2l "Takeaway", s2l "Abstract", s2l "DOI", s2l "Consensus Link"]

/-- Rendering `String(cell || '')` for an integral cell (0 and absent are falsy). -/
def intCellStr : Option ℤ → Str
  | none => []
  | some n => if n = 0 then [] else intToStr n

/-- The cell strings of one publication row, in export column order. -/
def pubCellStrings (p : Pub) : List Str :=
  [p.title, p.authors, intCellStr p.year, p.journal, p.sjr_quartile,
    intCellStr p.citations, p.study_type, p.takeaway, p.abstract,
    p.doi, p.consensus_link]

/-- The text built by `PublicationsEngine.exportToCSV` (every cell goes
through the same escaping rule; headers are joined unescaped). -/
def pubExportToCSV (pubs : List Pub) : Str :=
  joinSep ['\n'] (joinSep [','] pubHeaders
    :: pubs.map (fun p => joinSep [','] ((pubCellStrings p).map escapeField)))

/-- Parser modes: inside an unquoted field, inside a quoted field, or just
after a quote while inside a quoted field. -/
inductive CsvMode where
  | unq
  | inq
  | postq
  deriving DecidableEq

structure CsvSt where
  rows : List (List Str)
  row : List Str
  field : Str
  mode : CsvMode
  deriving DecidableEq

/-- One step of the standard CSV parser state machine. -/
def csvStep (st : CsvSt) (c : Char) : CsvSt :=
  match st.mode with
  | .unq =>
    if c = ',' then ⟨st.rows, st.row ++ [st.field], [], .unq⟩
    else if c = '\n' then ⟨st.rows ++ [st.row ++ [st.field]], [], [], .unq⟩
    else if c = '"' ∧ st.field = [] then ⟨st.rows, st.row, st.field, .inq⟩
    else ⟨st.rows, st.row, st.field ++ [c], .unq⟩
  | .inq =>
    if c = '"' then ⟨st.rows, st.row, st.field, .postq⟩
    else ⟨st.rows, st.row, st.field ++ [c], .inq⟩
  | .postq =>
    if c = '"' then ⟨st.rows, st.row, st.field ++ ['"'], .inq⟩
    else if c = ',' then ⟨st.rows, st.row ++ [st.field], [], .unq⟩
    else if c = '\n' then ⟨st.rows ++ [st.row ++ [st.field]], [], [], .unq⟩
    else ⟨st.rows, st.row, st.field ++ [c], .unq⟩

def runCsv (st : CsvSt) (s : Str) : CsvSt := s.foldl csvStep st

/-- Flush the trailing field and row at end of input. -/
def csvFinish (st : CsvSt) : List (List Str) := st.rows ++ [st.row ++ [st.field]]

/-- The standard CSV parser: rows of fields. -/
def parseCSV (s : Str) : List (List Str) := csvFinish (runCsv ⟨[], [], [], .unq⟩ s)

end Gaers


namespace Gaers

theorem runCsv_append (st : CsvSt) (a b : Str) :
    runCsv st (a ++ b) = runCsv (runCsv st a) b := by
  unfold runCsv
  rw [List.foldl_append]

theorem needsQuote_eq_false_iff (s : Str) :
    needsQuote s = false ↔ ',' ∉ s ∧ '"' ∉ s ∧ '\n' ∉ s := by
  unfold needsQuote
  simp [List.elem_iff, and_assoc]

theorem csvStep_unq_plain {c : Char} (hc₁ : c ≠ ',') (hc₂ : c ≠ '"')
    (hc₃ : c ≠ '\n') (rows : List (List Str)) (row : List Str) (acc : Str) :
    csvStep ⟨rows, row, acc, .unq⟩ c = ⟨rows, row, acc ++ [c], .unq⟩ := by
  simp only [csvStep]
  rw [if_neg hc₁, if_neg hc₃, if_neg (fun h => hc₂ h.1)]

theorem csvStep_inq_plain {c : Char} (hc : c ≠ '"') (rows : List (List Str))
    (row : List Str) (acc : Str) :
    csvStep ⟨rows, row, acc, .inq⟩ c = ⟨rows, row, acc ++ [c], .inq⟩ := by
  simp only [csvStep]
  rw [if_neg hc]

theorem runCsv_unq_plain (f : Str) (h : needsQuote f = false) :
    ∀ (rows : List (List Str)) (row : List Str) (acc : Str),
      runCsv ⟨rows, row, acc, .unq⟩ f = ⟨rows, row, acc ++ f, .unq⟩ := by
  induction f with
  | nil => intro rows row acc; simp [runCsv]
  | cons c cs ih =>
    intro rows row acc
    have hm := (needsQuote_eq_false_iff (c :: cs)).mp h
    have hc₁ : c ≠ ',' := by rintro rfl; exact hm.1 (List.mem_cons_self _ _)
    have hc₂ : c ≠ '"' := by rintro rfl; exact hm.2.1 (List.mem_cons_self _ _)
    have hc₃ : c ≠ '\n' := by rintro rfl; exact hm.2.2 (List.mem_cons_self _ _)
    have htail : needsQuote cs = false := (needsQuote_eq_false_iff cs).mpr
      ⟨fun hx => hm.1 (List.mem_cons_of_mem _ hx),
        fun hx => hm.2.1 (List.mem_cons_of_mem _ hx),
        fun hx => hm.2.2 (List.mem_cons_of_mem _ hx)⟩
    rw [show runCsv ⟨rows, row, acc, CsvMode.unq⟩ (c :: cs)
        = runCsv (csvStep ⟨rows, row, acc, CsvMode.unq⟩ c) cs from rfl,
      csvStep_unq_plain hc₁ hc₂ hc₃ rows row acc, ih htail rows row (acc ++ [c])]
    simp

theorem runCsv_inq_dup (f : Str) :
    ∀ (rows : List (List Str)) (row : List Str) (acc : Str),
      runCsv ⟨rows, row, acc, .inq⟩ (dupQuotes f) = ⟨rows, row, acc ++ f, .inq⟩ := by
  induction f with
  | nil => intro rows row acc; simp [runCsv, dupQuotes]
  | cons c cs ih =>
    intro rows row acc
    by_cases hc : c = '"'
    · subst hc
      have hd : dupQuotes ('"' :: cs) = '"' :: '"' :: dupQuotes cs := by
        simp [dupQuotes]
      rw [hd, show runCsv ⟨rows, row, acc, CsvMode.inq⟩ ('"' :: '"' :: dupQuotes cs)
          = runCsv (csvStep (csvStep ⟨rows, row, acc, CsvMode.inq⟩ '"') '"')
            (dupQuotes cs) from rfl,
        show csvStep (csvStep ⟨rows, row, acc, CsvMode.inq⟩ '"') '"'
          = ⟨rows, row, acc ++ ['"'], CsvMode.inq⟩ from rfl,
        ih rows row (acc ++ ['"'])]
      simp
    · have hd : dupQuotes (c :: cs) = c :: dupQuotes cs := by
        simp [dupQuotes, hc]
      rw [hd, show runCsv ⟨rows, row, acc, CsvMode.inq⟩ (c :: dupQuotes cs)
          = runCsv (csvStep ⟨rows, row, acc, CsvMode.inq⟩ c) (dupQuotes cs) from rfl,
        csvStep_inq_plain hc rows row acc, ih rows row (acc ++ [c])]
      simp

theorem runCsv_field (f : Str) (rows : List (List Str)) (row : List Str) :
    runCsv ⟨rows, row, [], .unq⟩ (escapeField f) = ⟨rows, row, f, .unq⟩
    ∨ runCsv ⟨rows, row, [], .unq⟩ (escapeField f) = ⟨rows, row, f, .postq⟩ := by
  by_cases h : needsQuote f = true
  · right
    have he : escapeField f = '"' :: (dupQuotes f ++ ['"']) := by
      unfold escapeField
      rw [if_pos h]
    rw [he, show runCsv ⟨rows, row, [], CsvMode.unq⟩ ('"' :: (dupQuotes f ++ ['"']))
        = runCsv ⟨rows, row, [], CsvMode.inq⟩ (dupQuotes f ++ ['"']) from rfl,
      runCsv_append, runCsv_inq_dup f rows row []]
    rfl
  · left
    have hf : needsQuote f = false := by
      revert h
      cases needsQuote f <;> simp
    have he : escapeField f = f := by
      unfold escapeField
      rw [if_neg h]
    rw [he, runCsv_unq_plain f hf rows row []]
    simp

theorem runCsv_rowText (fields : List Str) (hne : fields ≠ []) :
    ∀ (rows : List (List Str)) (row : List Str),
      ∃ st : CsvSt,
        runCsv ⟨rows, row, [], .unq⟩ (joinSep [','] (fields.map escapeField)) = st
        ∧ st.rows = rows ∧ st.row ++ [st.field] = row ++ fields
        ∧ (st.mode = .unq ∨ st.mode = .postq) := by
  induction fields with
  | nil => exact absurd rfl hne
  | cons f fs ih =>
    intro rows row
    cases fs with
    | nil =>
      have hj : joinSep [','] ([f].map escapeField) = escapeField f := rfl
      rw [hj]
      rcases runCsv_field f rows row with hcase | hcase
      · exact ⟨⟨rows, row, f, .unq⟩, hcase, rfl, rfl, Or.inl rfl⟩
      · exact ⟨⟨rows, row, f, .postq⟩, hcase, rfl, rfl, Or.inr rfl⟩
    | cons f₂ fs₂ =>
      have hj : joinSep [','] ((f :: f₂ :: fs₂).map escapeField)
          = escapeField f ++ [',']
            ++ joinSep [','] ((f₂ :: fs₂).map escapeField) := rfl
      rw [hj, runCsv_append, runCsv_append]
      rcases runCsv_field f rows row with hcase | hcase
      · rw [hcase, show runCsv ⟨rows, row, f, CsvMode.unq⟩ [',']
            = ⟨rows, row ++ [f], [], CsvMode.unq⟩ from rfl]
        rcases ih (by simp) rows (row ++ [f]) with ⟨st, h1, h2, h3, h4⟩
        exact ⟨st, h1, h2, by rw [h3]; simp, h4⟩
      · rw [hcase, show runCsv ⟨rows, row, f, CsvMode.postq⟩ [',']
            = ⟨rows, row ++ [f], [], CsvMode.unq⟩ from rfl]
        rcases ih (by simp) rows (row ++ [f]) with ⟨st, h1, h2, h3, h4⟩
        exact ⟨st, h1, h2, by rw [h3]; simp, h4⟩

theorem runCsv_rows (rowsData : List (List Str)) (hne : rowsData ≠ [])
    (hr : ∀ r ∈ rowsData, r ≠ []) :
    ∀ rows₀ : List (List Str),
      csvFinish (runCsv ⟨rows₀, [], [], .unq⟩
        (joinSep ['\n'] (rowsData.map (fun r => joinSep [','] (r.map escapeField)))))
        = rows₀ ++ rowsData := by
  induction rowsData with
  | nil => exact absurd rfl hne
  | cons r rs ih =>
    intro rows₀
    cases rs with
    | nil =>
      have hj : joinSep ['\n']
          (([r] : List (List Str)).map (fun x => joinSep [','] (x.map escapeField)))
          = joinSep [','] (r.map escapeField) := rfl
      rw [hj]
      rcases runCsv_rowText r (hr r (by simp)) rows₀ [] with ⟨st, h1, h2, h3, h4⟩
      rw [h1]
      unfold csvFinish
      rw [h2, h3]
      simp
    | cons r₂ rs₂ =>
      have hj : joinSep ['\n']
          ((r :: r₂ :: rs₂).map (fun x => joinSep [','] (x.map escapeField)))
          = joinSep [','] (r.map escapeField) ++ ['\n']
            ++ joinSep ['\n']
              ((r₂ :: rs₂).map (fun x => joinSep [','] (x.map escapeField))) := rfl
      rw [hj, runCsv_append, runCsv_append]
      rcases runCsv_rowText r (hr r (by simp)) rows₀ [] with ⟨st, h1, h2, h3, h4⟩
      rw [h1]
      obtain ⟨srows, srow, sfield, smode⟩ := st
      simp only at h2 h3 h4
      have hstep : runCsv ⟨srows, srow, sfield, smode⟩ ['\n']
          = ⟨srows ++ [srow ++ [sfield]], [], [], .unq⟩ := by
        rcases h4 with h | h
        · subst h; rfl
        · subst h; rfl
      rw [hstep]
      simp only [List.nil_append] at h3
      rw [h2, h3, ih (by simp) (fun x hx => hr x (List.mem_cons_of_mem _ hx))
        (rows₀ ++ [r])]
      simp

end Gaers

namespace Gaers

theorem map_escape_of_safe (l : List Str) (h : ∀ x ∈ l, needsQuote x = false) :
    l.map escapeField = l := by
  induction l with
  | nil => rfl
  | cons x xs ih =>
    have hx : escapeField x = x := by
      unfold escapeField
      rw [if_neg (by simp [h x (List.mem_cons_self _ _)])]
    simp only [List.map_cons, hx, ih (fun y hy => h y (List.mem_cons_of_mem _ hy))]

theorem cellText_eq_escape (cell : Cell) :
    cellText cell = escapeField (cell.getD []) := by
  cases cell <;> rfl

/-- C3: the CSV exporters quote-wrap exactly the fields containing a comma,
quote or newline (with inner quotes doubled), render null/undefined as the
empty string, emit the header row first, and a standard CSV parser run on
the produced text recovers the header cells and every original field value
exactly — for `exportToCSV` under safe headers, and for the publications
exporter unconditionally. -/
theorem C3_export_roundtrip :
    (∀ (data : List CRow) (cols : List Col), data ≠ [] → cols ≠ [] →
      (∀ c ∈ cols, needsQuote c.header = false) →
      parseCSV ((exportToCSV data cols).getD [])
        = cols.map Col.header
          :: data.map (fun r => cols.map (fun c => (rowGetCell r c.key).getD [])))
    ∧ ∀ pubs : List Pub,
      parseCSV (pubExportToCSV pubs) = pubHeaders :: pubs.map pubCellStrings := by
  constructor
  · intro data cols hd hc hsafe
    have hne : data.isEmpty = false := by
      cases data with
      | nil => exact absurd rfl hd
      | cons x xs => rfl
    have hexp : (exportToCSV data cols).getD []
        = joinSep ['\n'] (csvHeaderRow cols :: data.map (csvRow cols)) := by
      simp [exportToCSV, hne]
    have hsafe' : ∀ x ∈ cols.map Col.header, needsQuote x = false := by
      intro x hx
      rcases List.mem_map.mp hx with ⟨c, hcm, rfl⟩
      exact hsafe c hcm
    have hhdr : csvHeaderRow cols
        = joinSep [','] ((cols.map Col.header).map escapeField) := by
      unfold csvHeaderRow
      rw [map_escape_of_safe _ hsafe']
    have hrow : data.map (csvRow cols)
        = (data.map (fun r => cols.map (fun c => (rowGetCell r c.key).getD []))).map
            (fun x => joinSep [','] (x.map escapeField)) := by
      rw [List.map_map]
      refine List.map_congr_left ?_
      intro r _
      unfold csvRow
      congr 1
      rw [List.map_map]
      exact List.map_congr_left (fun c _ => cellText_eq_escape _)
    rw [hexp, hhdr, hrow]
    have hrne : ∀ x ∈ (cols.map Col.header)
        :: data.map (fun r => cols.map (fun c => (rowGetCell r c.key).getD [])),
        x ≠ [] := by
      intro x hx
      rcases List.mem_cons.mp hx with rfl | hx₂
      · simpa using hc
      · rcases List.mem_map.mp hx₂ with ⟨r, _, rfl⟩
        simpa using hc
    have key := runCsv_rows ((cols.map Col.header)
      :: data.map (fun r => cols.map (fun c => (rowGetCell r c.key).getD [])))
      (by simp) hrne []
    simpa using key
  · intro pubs
    have hhd : joinSep [','] pubHeaders
        = joinSep [','] (pubHeaders.map escapeField) := by
      rw [map_escape_of_safe pubHeaders (by decide)]
    unfold pubExportToCSV
    rw [hhd]
    have hrne : ∀ x ∈ pubHeaders :: pubs.map pubCellStrings, x ≠ [] := by
      intro x hx
      rcases List.mem_cons.mp hx with rfl | hx₂
      · decide
      · rcases List.mem_map.mp hx₂ with ⟨p, _, rfl⟩
        simp [pubCellStrings]
    have key := runCsv_rows (pubHeaders :: pubs.map pubCellStrings)
      (by simp) hrne []
    unfold parseCSV
    simpa [List.map_map] using key

/-- Concrete export input for the C3 witness: two columns, one row whose
values contain a comma, quotes and a newline. -/
def c3data : List CRow :=
  [[(s2l "k1", some (s2l "v,1")), (s2l "k2", some (s2l "he said \"hi\"\nbye")),
    (s2l "k3", none)]]

def c3cols : List Col :=
  [Col.mk (s2l "k1") (s2l "H1"), Col.mk (s2l "k2") (s2l "H2"),
    Col.mk (s2l "k3") (s2l "H3")]

/-- C3 witness: the hypotheses of `C3_export_roundtrip` hold at `c3data` /
`c3cols`, its conclusion follows there, and the parsed export evaluates to
the expected literal rows (null rendered as the empty string, the quoted
values recovered exactly). -/
theorem C3_witness :
    (c3data ≠ [] ∧ c3cols ≠ []
      ∧ ∀ c ∈ c3cols, needsQuote c.header = false)
    ∧ parseCSV ((exportToCSV c3data c3cols).getD [])
        = c3cols.map Col.header
          :: c3data.map (fun r => c3cols.map (fun c => (rowGetCell r c.key).getD []))
    ∧ parseCSV ((exportToCSV c3data c3cols).getD [])
        = [[s2l "H1", s2l "H2", s2l "H3"],
            [s2l "v,1", s2l "he said \"hi\"\nbye", []]]
    ∧ parseCSV (pubExportToCSV []) = [pubHeaders] :=
  ⟨⟨by decide, by decide, by decide⟩,
    C3_export_roundtrip.1 c3data c3cols (by decide) (by decide) (by decide),
    by decide,
    C3_export_roundtrip.2 []⟩

end Gaers
